import Mathlib

/-!
Shallow embedding of the Smart-Echo audio/retry core.

Sources:
* `createPcmBlob`, `decodeAudioData`, `encode`, `decode`, `withRetry`,
  `analyzeMathProblem` from the service module of the repository;
* the live-mentor scheduling / interruption / teardown fragments of
  `startLiveMentor` and `stopLiveMentor` from the app component.

Floating-point remark: every operation the PCM codec performs on float64
samples in `[-1, 1]` (multiplication and division by the power of two
32768, truncation, int16 reinterpretation) is exact in binary floating
point, so modelling samples as rationals introduces no approximation.
-/

namespace SmartEcho

/-! ### PCM codec -/

/-- JavaScript `ToInt16`-style truncation toward zero of a rational. -/
def truncQ (q : ℚ) : ℤ := if 0 ≤ q then ⌊q⌋ else ⌈q⌉

/-- Reinterpret a 16-bit unsigned pattern as a signed 16-bit integer
(two's complement), as `Int16Array` storage does. -/
def sint16 (u : ℕ) : ℤ := if 32768 ≤ u then (u : ℤ) - 65536 else (u : ℤ)

/-- The low 16 bits of an integer, as a natural number in `[0, 65536)`:
the bit pattern an `Int16Array` cell stores. -/
def toUint16 (t : ℤ) : ℕ := (t % 65536).toNat

/-- JavaScript conversion of a (rational-modelled) number to an int16 on
assignment into an `Int16Array`: truncate toward zero, then wrap modulo
`2^16` into the signed range.  No clamping - exactly as in the source. -/
def jsToInt16 (q : ℚ) : ℤ := sint16 (toUint16 (truncQ q))

/-- Little-endian byte pair of an int16 value, as the `Uint8Array` view of
the `Int16Array` buffer exposes it. -/
def int16ToBytes (t : ℤ) : List ℕ := [toUint16 t % 256, toUint16 t / 256]

/-- `createPcmBlob` (source): `int16[i] = data[i] * 32768` with no clamp,
then the raw bytes of the int16 buffer (little-endian).  The base64 text
wrapper `encode` applied afterwards in the source is a bijection on byte
sequences and is not part of the byte-level contract modelled here. -/
def createPcmBlobBytes : List ℚ → List ℕ
  | [] => []
  | q :: rest => int16ToBytes (jsToInt16 (q * 32768)) ++ createPcmBlobBytes rest

/-- `new Int16Array(data.buffer)`: read consecutive little-endian 16-bit
signed integers from a byte sequence.  (On an odd-length buffer the
`Int16Array` constructor throws; `decodeAudioData` below guards for that,
so the trailing-byte behaviour of this helper is never reached there.) -/
def bytesToInt16List : List ℕ → List ℤ
  | b0 :: b1 :: rest => sint16 (b0 + 256 * b1) :: bytesToInt16List rest
  | _ => []

/-- `decodeAudioData` (source): planar float buffer, one list per channel;
`frameCount = dataInt16.length / numChannels` (the fractional JS value is
floored by the `createBuffer` frame-count conversion, and the out-of-range
writes of the copy loop are silently discarded, so the effective frame
count is the floor); `channelData[i] = dataInt16[i*numChannels+channel] /
32768`.  Returns `none` where the source throws: an odd byte count (the
`Int16Array` constructor) or zero channels (`createBuffer`). -/
def decodeAudioData (bytes : List ℕ) (numChannels : ℕ) : Option (List (List ℚ)) :=
  if bytes.length % 2 ≠ 0 ∨ numChannels = 0 then none
  else
    some ((List.range numChannels).map (fun channel =>
      (List.range ((bytesToInt16List bytes).length / numChannels)).map (fun i =>
        (((bytesToInt16List bytes).getD (i * numChannels + channel) 0 : ℤ) : ℚ) / 32768)))

/-! ### Error shapes and the retry wrapper -/

/-- A JavaScript status-like value: a number or a string (the fields the
source probes hold e.g. `429` or `"RESOURCE_EXHAUSTED"`). -/
def StatusV : Type := ℤ ⊕ String

instance : DecidableEq StatusV := by unfold StatusV; infer_instance

/-- JavaScript truthiness of a status value: `0` and `""` are falsy. -/
def truthyV : StatusV → Bool
  | Sum.inl n => n ≠ 0
  | Sum.inr s => s ≠ ""

/-- JavaScript `a || b` over possibly-absent status values (`none` models
`undefined`/`null`). -/
def orJS (a b : Option StatusV) : Option StatusV :=
  match a with
  | some v => if truthyV v then some v else b
  | none => b

/-- Character-list substring search, the semantics of JavaScript
`String.prototype.includes`. -/
def leadMatch : List Char → List Char → Bool
  | [], _ => true
  | _ :: _, [] => false
  | n :: ns, h :: hs => n = h && leadMatch ns hs

/-- `haystack.includes(needle)` on character lists. -/
def containsSeq : List Char → List Char → Bool
  | [], needle => needle.isEmpty
  | c :: rest, needle => leadMatch needle (c :: rest) || containsSeq rest needle

/-- `haystack.includes(needle)` on strings. -/
def strContains (haystack needle : String) : Bool :=
  containsSeq haystack.toList needle.toList

/-- The error shape `withRetry` probes: the optional fields `err.status`,
`err.error.status`, `err.error.code`, and the message string. -/
structure JsError where
  status : Option StatusV
  errorStatus : Option StatusV
  errorCode : Option StatusV
  message : String
  deriving DecidableEq

/-- The source's status probe:
`err?.status || err?.error?.status || err?.error?.code ||
 (err?.message?.includes(\x7b'429'\x7d) ? 429 : null)` -/
def derivedStatus (e : JsError) : Option StatusV :=
  orJS e.status (orJS e.errorStatus (orJS e.errorCode
    (if strContains e.message "429" then some (Sum.inl 429) else none)))

/-- The source's quota classification:
`status === 429 || status === "RESOURCE_EXHAUSTED" ||
 message.includes("RESOURCE_EXHAUSTED")`. -/
def isQuotaError (e : JsError) : Bool :=
  decide (derivedStatus e = some (Sum.inl 429)) ||
  decide (derivedStatus e = some (Sum.inr "RESOURCE_EXHAUSTED")) ||
  strContains e.message "RESOURCE_EXHAUSTED"

/-- Observable outcome of a `withRetry` run: the returned value or thrown
error (`Except.error none` models throwing the initial `undefined`
`lastError` when the loop body never ran), the number of invocations of
the wrapped operation, and the list of backoff delays (milliseconds)
actually awaited, in order. -/
structure RetryTrace (T : Type) where
  result : Except (Option JsError) T
  calls : ℕ
  delaysMs : List ℕ

/-- The loop body of `withRetry`, starting at iteration `i` with
`maxRetries - i` iterations of fuel left and `last` as the accumulated
`lastError`.  Mirrors: try `fn()`; on error classify; break when the
error is not quota-classified or this is the final iteration; otherwise
await `2^i * 1000` ms and continue. -/
def withRetryGo {T : Type} (op : ℕ → Except JsError T) (maxRetries : ℕ) :
    ℕ → ℕ → Option JsError → RetryTrace T
  | _, 0, last => ⟨Except.error last, 0, []⟩
  | i, fuel + 1, _ =>
    match op i with
    | Except.ok v => ⟨Except.ok v, 1, []⟩
    | Except.error e =>
      if isQuotaError e = false ∨ i = maxRetries - 1 then
        ⟨Except.error (some e), 1, []⟩
      else
        let rest := withRetryGo op maxRetries (i + 1) fuel (some e)
        ⟨rest.result, rest.calls + 1, 2 ^ i * 1000 :: rest.delaysMs⟩

/-- `withRetry(fn, maxRetries)` from the source, with the `i`-th
invocation of `fn` modelled as `op i`. -/
def withRetry {T : Type} (op : ℕ → Except JsError T) (maxRetries : ℕ := 3) :
    RetryTrace T :=
  withRetryGo op maxRetries 0 maxRetries none

/-! ### analyzeMathProblem -/

/-- The message of the error thrown by `analyzeMathProblem` when
`JSON.parse` of the response text fails. -/
def malformedMsg : String :=
  "I had a little trouble organizing my thoughts. Could you show me the problem again?"

/-- The malformed-response error object (`new Error(malformedMsg)`: no
status fields, only a message). -/
def malformedError : JsError := ⟨none, none, none, malformedMsg⟩

/-- One attempt of the function `analyzeMathProblem` passes to
`withRetry`: the remote `generateContent` call (modelled by `remote`, per
attempt index) followed by `JSON.parse` of the response text (modelled by
`parse`); a parse failure throws `malformedError` inside the retried
body. -/
def analyzeAttempt {T : Type} (remote : ℕ → Except JsError String)
    (parse : String → Option T) (i : ℕ) : Except JsError T :=
  match remote i with
  | Except.error e => Except.error e
  | Except.ok txt =>
    match parse txt with
    | some v => Except.ok v
    | none => Except.error malformedError

/-- `analyzeMathProblem` = `withRetry` applied to one attempt, with the
source's default of 3 attempts. -/
def analyzeMathProblem {T : Type} (remote : ℕ → Except JsError String)
    (parse : String → Option T) : RetryTrace T :=
  withRetry (analyzeAttempt remote parse) 3

/-! ### Playback scheduling (onmessage audio branch) -/

/-- State of the live playback scheduler: `nextStartTime` and the
`liveSourcesRef` set, plus bookkeeping that records which handles had
`stop()` called, when each handle's `start(t)` was issued, and a counter
supplying fresh handle ids. -/
structure PlayerState where
  nextStartTime : ℚ
  activeSources : List ℕ
  stoppedSources : List ℕ
  startLog : List (ℕ × ℚ)
  nextId : ℕ
  deriving DecidableEq

/-- The audio branch of `onmessage` at output-clock time `now`, for a
decoded buffer of duration `dur`:
`nextStartTime = max(nextStartTime, ctx.currentTime)`; create a source;
`source.start(nextStartTime)`; `nextStartTime += buffer.duration`;
add the source to the set. -/
def scheduleAudio (st : PlayerState) (now dur : ℚ) : PlayerState :=
  let t := max st.nextStartTime now
  { nextStartTime := t + dur
    activeSources := st.nextId :: st.activeSources
    stoppedSources := st.stoppedSources
    startLog := (st.nextId, t) :: st.startLog
    nextId := st.nextId + 1 }

/-- The `serverContent.interrupted` branch of `onmessage`: stop every
source in the set, clear the set, reset `nextStartTime` to 0. -/
def handleInterrupted (st : PlayerState) : PlayerState :=
  { st with
    activeSources := []
    stoppedSources := st.activeSources ++ st.stoppedSources
    nextStartTime := 0 }

/-! ### Session lifecycle (startLiveMentor / stopLiveMentor) -/

/-- The component refs relevant to session lifecycle: `liveSessionRef`,
`liveStreamRef`, `liveSourcesRef`, and the `isLiveMode` flag, plus
bookkeeping recording which streams had their tracks stopped, which
sessions had `close()` called, and which sources had `stop()` called. -/
structure AppState where
  liveSessionRef : Option ℕ
  liveStreamRef : Option ℕ
  liveSources : List ℕ
  isLiveMode : Bool
  stoppedStreams : List ℕ
  closedSessions : List ℕ
  stoppedSrcs : List ℕ
  deriving DecidableEq

/-- `stopLiveMentor` from the source: close the session if present (the
`close()` call is wrapped in try/catch, so a double close throws nothing
observable) and null the ref; stop the stream tracks if present and null
the ref; stop every source in `liveSourcesRef` (each `stop()` wrapped in
try/catch) and clear the set; `setIsLiveMode(false)`. -/
def stopLiveMentor (st : AppState) : AppState :=
  let st1 :=
    match st.liveSessionRef with
    | some s => { st with closedSessions := s :: st.closedSessions, liveSessionRef := none }
    | none => st
  let st2 :=
    match st1.liveStreamRef with
    | some m => { st1 with stoppedStreams := m :: st1.stoppedStreams, liveStreamRef := none }
    | none => st1
  { st2 with
    stoppedSrcs := st2.liveSources ++ st2.stoppedSrcs
    liveSources := []
    isLiveMode := false }

/-- The re-entry guard at the top of `startLiveMentor`:
`if (liveStreamRef.current) liveStreamRef.current.getTracks().forEach(t => t.stop())`.
Nothing else of the prior session is touched: `liveSessionRef` is not
closed, `liveSourcesRef` is not stopped or cleared, and even
`liveStreamRef` keeps pointing at the stopped stream. -/
def reentryGuard (st : AppState) : AppState :=
  match st.liveStreamRef with
  | some m => { st with stoppedStreams := m :: st.stoppedStreams }
  | none => st

/-- The successful path of `startLiveMentor` after the guard, restricted
to the modelled refs: acquire a fresh microphone stream, set live mode,
connect and store the new session handle.  The prior session's handle is
overwritten without `close()`, and `liveSourcesRef` is carried over
untouched. -/
def startLiveMentorSuccess (st : AppState) (newStream newSession : ℕ) : AppState :=
  let st1 := reentryGuard st
  { st1 with
    liveStreamRef := some newStream
    isLiveMode := true
    liveSessionRef := some newSession }

/-- Modelled from the spec's words (claim C3): an error is retryable iff
"its status code equals 429 OR its message contains a resource-exhaustion
marker string".  This is the claim's predicate, to be compared with the
source's `isQuotaError`. -/
def specC3Retryable (e : JsError) : Bool :=
  decide (derivedStatus e = some (Sum.inl 429)) ||
  strContains e.message "RESOURCE_EXHAUSTED"

/-! ### PCM lemmas -/

theorem truncQ_close (q : ℚ) : |(truncQ q : ℚ) - q| < 1 := by
  unfold truncQ
  split
  · rw [abs_lt]
    constructor <;> [skip; skip] <;>
      [linarith [Int.lt_floor_add_one q]; linarith [Int.floor_le q]]
  · rw [abs_lt]
    constructor <;> [skip; skip] <;>
      [linarith [Int.le_ceil q]; linarith [Int.ceil_lt_add_one q]]

theorem truncQ_range (q : ℚ) (h1 : -32768 ≤ q) (h2 : q < 32768) :
    -32768 ≤ truncQ q ∧ truncQ q ≤ 32767 := by
  unfold truncQ
  split
  · constructor
    · have h0 : (0 : ℤ) ≤ ⌊q⌋ := Int.floor_nonneg.mpr (by assumption)
      omega
    · have : (⌊q⌋ : ℚ) < 32768 := lt_of_le_of_lt (Int.floor_le q) h2
      have : ⌊q⌋ < (32768 : ℤ) := by exact_mod_cast this
      omega
  · constructor
    · have : (-32768 : ℚ) ≤ (⌈q⌉ : ℚ) := le_trans h1 (Int.le_ceil q)
      exact_mod_cast this
    · have h0 : ⌈q⌉ ≤ (0 : ℤ) := Int.ceil_le.mpr (by push_cast; linarith)
      omega

theorem sint16_toUint16 (t : ℤ) (h1 : -32768 ≤ t) (h2 : t ≤ 32767) :
    sint16 (toUint16 t) = t := by
  unfold sint16 toUint16
  split <;> omega

theorem sint16_range (u : ℕ) (hu : u < 65536) :
    -32768 ≤ sint16 u ∧ sint16 u ≤ 32767 := by
  unfold sint16
  split <;> omega

theorem toUint16_lt (t : ℤ) : toUint16 t < 65536 := by
  unfold toUint16; omega

theorem jsToInt16_range (q : ℚ) : -32768 ≤ jsToInt16 q ∧ jsToInt16 q ≤ 32767 :=
  sint16_range _ (toUint16_lt _)

theorem bytesToInt16List_encode (t : ℤ) (rest : List ℕ)
    (h1 : -32768 ≤ t) (h2 : t ≤ 32767) :
    bytesToInt16List (int16ToBytes t ++ rest) = t :: bytesToInt16List rest := by
  show bytesToInt16List (toUint16 t % 256 :: toUint16 t / 256 :: rest) = _
  rw [bytesToInt16List]
  rw [Nat.mod_add_div (toUint16 t) 256]
  rw [sint16_toUint16 t h1 h2]

theorem bytesToInt16List_createPcm (samples : List ℚ) :
    bytesToInt16List (createPcmBlobBytes samples) =
      samples.map (fun q => jsToInt16 (q * 32768)) := by
  induction samples with
  | nil => rfl
  | cons q rest ih =>
    rw [createPcmBlobBytes, List.map_cons,
      bytesToInt16List_encode _ _ (jsToInt16_range _).1 (jsToInt16_range _).2, ih]

theorem createPcm_length (samples : List ℚ) :
    (createPcmBlobBytes samples).length = 2 * samples.length := by
  induction samples with
  | nil => rfl
  | cons q rest ih =>
    rw [createPcmBlobBytes, List.length_append, ih, int16ToBytes]
    simp only [List.length_cons, List.length_nil]
    ring

theorem getD_mem_of_lt {α : Type} (l : List α) (d : α) (i : ℕ) (h : i < l.length) :
    l.getD i d ∈ l := by
  induction l generalizing i with
  | nil => simp at h
  | cons a tl ih =>
    cases i with
    | zero => simp
    | succ n =>
      rw [List.getD_cons_succ]
      exact List.mem_cons_of_mem _ (ih n (by simpa using h))

theorem getD_map_of_lt {α β : Type} (l : List α) (f : α → β) (d : α) (d2 : β)
    (i : ℕ) (h : i < l.length) : (l.map f).getD i d2 = f (l.getD i d) := by
  induction l generalizing i with
  | nil => simp at h
  | cons a tl ih =>
    cases i with
    | zero => simp
    | succ n =>
      rw [List.map_cons, List.getD_cons_succ, List.getD_cons_succ]
      exact ih n (by simpa using h)

theorem range_map_getD {α β : Type} (l : List α) (g : α → β) (d : α) :
    (List.range l.length).map (fun i => g (l.getD i d)) = l.map g := by
  induction l with
  | nil => rfl
  | cons a tl ih =>
    have h1 : List.range (a :: tl).length = 0 :: (List.range tl.length).map Nat.succ := by
      rw [List.length_cons, List.range_succ_eq_map]
    have h2 : ((fun i => g ((a :: tl).getD i d)) ∘ Nat.succ) =
        (fun i => g (tl.getD i d)) := by
      funext i
      rfl
    rw [h1, List.map_cons, List.map_map, h2, List.getD_cons_zero, List.map_cons, ih]

/-- Composition of the codec: decoding (1 channel) what `createPcmBlob`
encodes yields one channel holding `jsToInt16 (q * 32768) / 32768` for
each input sample `q`. -/
theorem decode_createPcm (samples : List ℚ) :
    decodeAudioData (createPcmBlobBytes samples) 1 =
      some [samples.map (fun q => ((jsToInt16 (q * 32768) : ℤ) : ℚ) / 32768)] := by
  unfold decodeAudioData
  rw [if_neg]
  · rw [bytesToInt16List_createPcm]
    have hone : List.range 1 = [0] := rfl
    rw [Nat.div_one, hone, List.map_cons, List.map_nil]
    congr 2
    simp only [mul_one, Nat.add_zero]
    rw [range_map_getD (samples.map (fun q => jsToInt16 (q * 32768)))
      (fun t => ((t : ℤ) : ℚ) / 32768) 0, List.map_map]
    rfl
  · push_neg
    refine ⟨?_, one_ne_zero⟩
    rw [createPcm_length]
    omega

/-- Quantization bound for one sample in `[-1, 1)`. -/
theorem pcm_sample_bound (q : ℚ) (h1 : -1 ≤ q) (h2 : q < 1) :
    |((jsToInt16 (q * 32768) : ℤ) : ℚ) / 32768 - q| ≤ 1 / 32768 := by
  have hy1 : -32768 ≤ q * 32768 := by linarith
  have hy2 : q * 32768 < 32768 := by linarith
  have hr := truncQ_range (q * 32768) hy1 hy2
  have heq : jsToInt16 (q * 32768) = truncQ (q * 32768) := by
    unfold jsToInt16
    exact sint16_toUint16 _ hr.1 hr.2
  rw [heq]
  have hclose := truncQ_close (q * 32768)
  have hrw : ((truncQ (q * 32768) : ℤ) : ℚ) / 32768 - q =
      (((truncQ (q * 32768) : ℤ) : ℚ) - q * 32768) / 32768 := by ring
  rw [hrw, abs_div]
  have h32 : |(32768 : ℚ)| = 32768 := by norm_num
  rw [h32]
  have : |((truncQ (q * 32768) : ℤ) : ℚ) - q * 32768| ≤ 1 := le_of_lt hclose
  linarith

/-- C1 (amended): PCM round-trip on the half-open range.  For every finite
rational sample sequence with every value in `[-1, 1)` and length at least
1, decoding (1 channel) the bytes produced by `createPcmBlob` yields one
channel of the same length whose samples differ from the input by at most
`1/32768` each.  (At the value `1` itself the unclamped encoder wraps
`32768` to `-32768`, so the closed interval of the original claim fails;
see the counterexample.) -/
theorem C1_round_trip (samples : List ℚ) (_hlen : 1 ≤ samples.length)
    (hin : ∀ q ∈ samples, -1 ≤ q ∧ q < 1) :
    ∃ decoded : List ℚ,
      decodeAudioData (createPcmBlobBytes samples) 1 = some [decoded] ∧
      decoded.length = samples.length ∧
      ∀ i, i < samples.length →
        |decoded.getD i 0 - samples.getD i 0| ≤ 1 / 32768 := by
  refine ⟨samples.map (fun q => ((jsToInt16 (q * 32768) : ℤ) : ℚ) / 32768),
    decode_createPcm samples, List.length_map _ _, ?_⟩
  intro i hi
  rw [getD_map_of_lt samples _ 0 0 i hi]
  have hq := hin (samples.getD i 0) (getD_mem_of_lt samples 0 i hi)
  exact pcm_sample_bound _ hq.1 hq.2

/-- C1 counterexample: the claim as stated (closed interval `[-1, 1]`)
fails at the one-sample sequence `[1]`: the encoder maps `1` to the int16
pattern of `-32768` (wraparound), the decoder returns `-1`, and the error
is `2`, far above `1/32768`. -/
theorem C1_counterexample :
    (∀ q ∈ [(1 : ℚ)], -1 ≤ q ∧ q ≤ 1) ∧ 1 ≤ ([(1 : ℚ)]).length ∧
    decodeAudioData (createPcmBlobBytes [(1 : ℚ)]) 1 = some [[-1]] ∧
    ¬ |(-1 : ℚ) - 1| ≤ 1 / 32768 := by
  refine ⟨by norm_num, by norm_num, ?_, by rw [abs_of_nonpos] <;> norm_num⟩
  norm_num [decodeAudioData, createPcmBlobBytes, jsToInt16, truncQ, toUint16,
    sint16, int16ToBytes, bytesToInt16List]
  norm_num [show Int.toNat 32768 % 256 + 256 * (Int.toNat 32768 / 256) = 32768
    from by decide, show List.range 1 = [0] from rfl]

/-- C1 witness: the amended round-trip theorem applied to the concrete
sequence `[1/2]`. -/
theorem C1_witness :
    ∃ decoded : List ℚ,
      decodeAudioData (createPcmBlobBytes [(1 : ℚ)/2]) 1 = some [decoded] ∧
      decoded.length = ([(1 : ℚ)/2]).length ∧
      ∀ i, i < ([(1 : ℚ)/2]).length →
        |decoded.getD i 0 - ([(1 : ℚ)/2]).getD i 0| ≤ 1 / 32768 :=
  C1_round_trip [(1 : ℚ)/2] (by norm_num)
    (by intro q hq; rw [List.mem_singleton] at hq; rw [hq]; norm_num)

theorem getD_range (n i : ℕ) (h : i < n) : (List.range n).getD i 0 = i := by
  rw [List.getD_eq_getElem?_getD, List.getElem?_range h]
  rfl

theorem bytesToInt16List_length :
    ∀ l : List ℕ, (bytesToInt16List l).length = l.length / 2
  | [] => by
    show (0 : ℕ) = 0 / 2
    omega
  | [_] => by
    show (0 : ℕ) = 1 / 2
    omega
  | b0 :: b1 :: rest => by
    show (bytesToInt16List rest).length + 1 = (rest.length + 1 + 1) / 2
    rw [bytesToInt16List_length rest]
    omega

theorem bytesToInt16List_getD :
    ∀ (l : List ℕ) (k : ℕ), 2 * k + 1 < l.length →
      (bytesToInt16List l).getD k 0 =
        sint16 (l.getD (2 * k) 0 + 256 * l.getD (2 * k + 1) 0)
  | _ :: _ :: _, 0, _ => rfl
  | b0 :: b1 :: rest, n + 1, hk => by
    have hn : 2 * n + 1 < rest.length := by
      simp only [List.length_cons] at hk
      omega
    have ihn := bytesToInt16List_getD rest n hn
    show (bytesToInt16List rest).getD n 0 =
      sint16 ((b0 :: b1 :: rest).getD (2 * (n + 1)) 0 +
        256 * (b0 :: b1 :: rest).getD (2 * (n + 1) + 1) 0)
    rw [ihn]
    have e1 : 2 * (n + 1) = 2 * n + 1 + 1 := by ring
    rw [e1]
    rfl
  | [], k, hk => by simp at hk
  | [_], k, hk => by simp at hk

/-- C10: PCM decode shape.  For every even-length byte sequence and every
`channelCount ≥ 1`, `decodeAudioData` succeeds, returning `channelCount`
planar channels, each of `(total int16 samples) / channelCount` frames
(floor division: a trailing incomplete frame is dropped), where channel
`ch`, frame `i`, holds the little-endian signed 16-bit integer at sample
index `i * channelCount + ch`, divided by 32768; and the bytes
`[0x00, 0x40]` at 1 channel decode to the single value `1/2`. -/
theorem C10_decode_shape (bytes : List ℕ) (c : ℕ)
    (heven : bytes.length % 2 = 0) (hc : 1 ≤ c) :
    ∃ planar : List (List ℚ),
      decodeAudioData bytes c = some planar ∧
      planar.length = c ∧
      (∀ ch, ch < c → (planar.getD ch []).length = bytes.length / 2 / c) ∧
      (∀ ch i, ch < c → i < bytes.length / 2 / c →
        (planar.getD ch []).getD i 0 =
          ((sint16 (bytes.getD (2 * (i * c + ch)) 0 +
            256 * bytes.getD (2 * (i * c + ch) + 1) 0) : ℤ) : ℚ) / 32768) ∧
      decodeAudioData [0, 64] 1 = some [[1 / 2]] := by
  have hfc : (bytesToInt16List bytes).length / c = bytes.length / 2 / c := by
    rw [bytesToInt16List_length]
  refine ⟨(List.range c).map (fun channel =>
      (List.range ((bytesToInt16List bytes).length / c)).map (fun i =>
        (((bytesToInt16List bytes).getD (i * c + channel) 0 : ℤ) : ℚ) / 32768)),
    ?_, ?_, ?_, ?_, ?_⟩
  · unfold decodeAudioData
    rw [if_neg (by push_neg; exact ⟨heven, by omega⟩)]
  · rw [List.length_map, List.length_range]
  · intro ch hch
    rw [getD_map_of_lt (List.range c) _ 0 [] ch (by rwa [List.length_range]),
      getD_range c ch hch, List.length_map, List.length_range, hfc]
  · intro ch i hch hi
    have hi2 : i < (bytesToInt16List bytes).length / c := by rwa [hfc]
    rw [getD_map_of_lt (List.range c) _ 0 [] ch (by rwa [List.length_range]),
      getD_range c ch hch,
      getD_map_of_lt (List.range ((bytesToInt16List bytes).length / c)) _ 0 0 i
        (by rwa [List.length_range]),
      getD_range _ i hi2]
    have hk : 2 * (i * c + ch) + 1 < bytes.length := by
      have h1 : i * c + ch < (bytes.length / 2 / c) * c := by
        calc i * c + ch < i * c + c := by omega
        _ = (i + 1) * c := by ring
        _ ≤ (bytes.length / 2 / c) * c := Nat.mul_le_mul_right c (by omega)
      have h2 : (bytes.length / 2 / c) * c ≤ bytes.length / 2 :=
        Nat.div_mul_le_self _ _
      omega
    rw [bytesToInt16List_getD bytes (i * c + ch) hk]
  · norm_num [decodeAudioData, bytesToInt16List, sint16,
      show List.range 1 = [0] from rfl]

/-- C10 witness: the decode-shape theorem applied to the concrete bytes
`[0x00, 0x40]` at 1 channel. -/
theorem C10_witness :
    ∃ planar : List (List ℚ),
      decodeAudioData [0, 64] 1 = some planar ∧
      planar.length = 1 ∧
      (∀ ch, ch < 1 → (planar.getD ch []).length = ([0, 64] : List ℕ).length / 2 / 1) ∧
      (∀ ch i, ch < 1 → i < ([0, 64] : List ℕ).length / 2 / 1 →
        (planar.getD ch []).getD i 0 =
          ((sint16 (([0, 64] : List ℕ).getD (2 * (i * 1 + ch)) 0 +
            256 * ([0, 64] : List ℕ).getD (2 * (i * 1 + ch) + 1) 0) : ℤ) : ℚ) / 32768) ∧
      decodeAudioData [0, 64] 1 = some [[1 / 2]] :=
  C10_decode_shape [0, 64] 1 (by norm_num) (by norm_num)

/-! ### Retry lemmas -/

/-- A first-attempt error that is not quota-classified short-circuits the
loop: one invocation, no delay, the error re-raised unchanged. -/
theorem withRetry_first_nonquota {T : Type} (op : ℕ → Except JsError T)
    (n : ℕ) (hn : 1 ≤ n) (e : JsError)
    (hop : op 0 = Except.error e) (hq : isQuotaError e = false) :
    withRetry op n = ⟨Except.error (some e), 1, []⟩ := by
  unfold withRetry
  cases n with
  | zero => omega
  | succ m => simp [withRetryGo, hop, hq]

/-- Three quota-classified failures exhaust `withRetry` at the default
3 attempts: three invocations, delays of `2^0` and `2^1` seconds, the
last error re-raised unchanged. -/
theorem withRetry_three_quota {T : Type} (op : ℕ → Except JsError T)
    (errs : ℕ → JsError) (hop : ∀ i, op i = Except.error (errs i))
    (hq : ∀ i, isQuotaError (errs i) = true) :
    withRetry op 3 = ⟨Except.error (some (errs 2)), 3, [1000, 2000]⟩ := by
  norm_num [withRetry, withRetryGo, hop 0, hop 1, hop 2, hq 0, hq 1, hq 2]

/-- A status field equal to the number 429 makes the classification
quota-retryable. -/
theorem isQuota_of_status429 (e : JsError) (h : e.status = some (Sum.inl 429)) :
    isQuotaError e = true := by
  unfold isQuotaError derivedStatus orJS
  rw [h]
  simp [truthyV]

/-- The malformed-response error is not quota-classified. -/
theorem malformed_not_quota : isQuotaError malformedError = false := by decide

/-- C2 (confirmed): an operation that raises a quota-classified error on
every invocation is invoked exactly 3 times by `withRetry(op, 3)`, with a
1-second delay before the second attempt and a 2-second delay before the
third (delays `[1000, 2000]` ms, i.e. `2^i` seconds following 0-indexed
attempt `i`), and the last observed error is then raised unchanged. -/
theorem C2_retry_ceiling {T : Type} (op : ℕ → Except JsError T)
    (errs : ℕ → JsError) (hop : ∀ i, op i = Except.error (errs i))
    (hq : ∀ i, isQuotaError (errs i) = true) :
    (withRetry op 3).calls = 3 ∧
    (withRetry op 3).delaysMs = [1000, 2000] ∧
    (withRetry op 3).result = Except.error (some (errs 2)) := by
  rw [withRetry_three_quota op errs hop hq]
  exact ⟨rfl, rfl, rfl⟩

/-- C2 witness: a concrete always-429 operation. -/
theorem C2_witness :
    (withRetry (fun _ => (Except.error ⟨some (Sum.inl 429), none, none, "quota"⟩ :
        Except JsError Unit)) 3).calls = 3 ∧
    (withRetry (fun _ => (Except.error ⟨some (Sum.inl 429), none, none, "quota"⟩ :
        Except JsError Unit)) 3).delaysMs = [1000, 2000] ∧
    (withRetry (fun _ => (Except.error ⟨some (Sum.inl 429), none, none, "quota"⟩ :
        Except JsError Unit)) 3).result =
      Except.error (some ⟨some (Sum.inl 429), none, none, "quota"⟩) :=
  by
  have h : isQuotaError ⟨some (Sum.inl 429), none, none, "quota"⟩ = true := by decide
  exact C2_retry_ceiling _ (fun _ => ⟨some (Sum.inl 429), none, none, "quota"⟩)
    (fun _ => rfl) (fun _ => h)

/-- C3 (amended): `withRetry` treats an error as retryable iff the probed
status (`err.status`, else `err.error.status`, else `err.error.code`,
else 429 when the message contains "429") equals the number 429 OR equals
the string "RESOURCE_EXHAUSTED", or the message contains
"RESOURCE_EXHAUSTED".  The original claim omitted the
status-equals-"RESOURCE_EXHAUSTED" disjunct. -/
theorem C3_classification (e : JsError) :
    isQuotaError e = true ↔
      derivedStatus e = some (Sum.inl 429) ∨
      derivedStatus e = some (Sum.inr "RESOURCE_EXHAUSTED") ∨
      strContains e.message "RESOURCE_EXHAUSTED" = true := by
  unfold isQuotaError
  simp [Bool.or_eq_true, decide_eq_true_eq, or_assoc]

/-- C3 counterexample: an error whose `error.status` field is the string
"RESOURCE_EXHAUSTED" but whose status code is not 429 and whose message
contains no marker is classified retryable by the source, while the
claim's iff-predicate classifies it non-retryable. -/
theorem C3_counterexample :
    isQuotaError ⟨none, some (Sum.inr "RESOURCE_EXHAUSTED"), none, "boom"⟩ = true ∧
    specC3Retryable ⟨none, some (Sum.inr "RESOURCE_EXHAUSTED"), none, "boom"⟩ = false := by
  decide

/-- C4 (confirmed): an operation whose first invocation raises a
non-quota-classified error is invoked exactly once; the error is raised
immediately and no backoff delay is inserted. -/
theorem C4_short_circuit {T : Type} (op : ℕ → Except JsError T)
    (n : ℕ) (hn : 1 ≤ n) (e : JsError)
    (hop : op 0 = Except.error e) (hq : isQuotaError e = false) :
    (withRetry op n).calls = 1 ∧
    (withRetry op n).result = Except.error (some e) ∧
    (withRetry op n).delaysMs = [] := by
  rw [withRetry_first_nonquota op n hn e hop hq]
  exact ⟨rfl, rfl, rfl⟩

/-- C4 witness: a concrete non-quota error at the default 3 attempts. -/
theorem C4_witness :
    (withRetry (fun _ => (Except.error ⟨none, none, none, "boom"⟩ :
        Except JsError Unit)) 3).calls = 1 ∧
    (withRetry (fun _ => (Except.error ⟨none, none, none, "boom"⟩ :
        Except JsError Unit)) 3).result =
      Except.error (some ⟨none, none, none, "boom"⟩) ∧
    (withRetry (fun _ => (Except.error ⟨none, none, none, "boom"⟩ :
        Except JsError Unit)) 3).delaysMs = [] :=
  C4_short_circuit _ 3 (by norm_num) ⟨none, none, none, "boom"⟩ rfl (by decide)

/-- C9 (confirmed): a response body that fails to parse makes
`analyzeMathProblem` raise the malformed-response error after exactly one
invocation of the remote operation, with no delay - the parse failure is
not quota-classified, so `withRetry` never re-invokes - and the surfaced
error is the distinct fixed malformed-response error object; by contrast
a 429-status failure on every attempt is retried to 3 total attempts. -/
theorem C9_malformed_no_retry {T : Type} (remote : ℕ → Except JsError String)
    (parse : String → Option T) (txt : String)
    (hok : remote 0 = Except.ok txt) (hparse : parse txt = none)
    (remote2 : ℕ → Except JsError String) (e : JsError)
    (he : ∀ i, remote2 i = Except.error e)
    (hst : e.status = some (Sum.inl 429)) :
    (analyzeMathProblem remote parse).calls = 1 ∧
    (analyzeMathProblem remote parse).result = Except.error (some malformedError) ∧
    (analyzeMathProblem remote parse).delaysMs = [] ∧
    (analyzeMathProblem remote2 parse).calls = 3 := by
  have h1 : analyzeAttempt remote parse 0 = Except.error malformedError := by
    simp [analyzeAttempt, hok, hparse]
  have h2 : analyzeMathProblem remote parse =
      ⟨Except.error (some malformedError), 1, []⟩ :=
    withRetry_first_nonquota _ 3 (by norm_num) _ h1 malformed_not_quota
  have h3 : analyzeMathProblem remote2 parse =
      ⟨Except.error (some e), 3, [1000, 2000]⟩ := by
    refine withRetry_three_quota _ (fun _ => e) (fun i => ?_) (fun _ => isQuota_of_status429 e hst)
    simp [analyzeAttempt, he i]
  rw [h2, h3]
  exact ⟨rfl, rfl, rfl, rfl⟩

/-- C9 witness: the body "not json" with a parser that rejects it, and a
concrete always-429 remote. -/
theorem C9_witness :
    (analyzeMathProblem (fun _ => Except.ok "not json")
      (fun _ => (none : Option Unit))).calls = 1 ∧
    (analyzeMathProblem (fun _ => Except.ok "not json")
      (fun _ => (none : Option Unit))).result = Except.error (some malformedError) ∧
    (analyzeMathProblem (fun _ => Except.ok "not json")
      (fun _ => (none : Option Unit))).delaysMs = [] ∧
    (analyzeMathProblem
      (fun _ => Except.error ⟨some (Sum.inl 429), none, none, "quota"⟩)
      (fun _ => (none : Option Unit))).calls = 3 :=
  C9_malformed_no_retry (fun _ => Except.ok "not json") (fun _ => none)
    "not json" rfl rfl
    (fun _ => Except.error ⟨some (Sum.inl 429), none, none, "quota"⟩)
    ⟨some (Sum.inl 429), none, none, "quota"⟩ (fun _ => rfl) rfl

/-! ### Playback scheduling and session lifecycle claims -/

/-- C5 (confirmed): playback gaplessness.  Scheduling three buffers of
durations `d1, d2, d3` while the output clock reads `t0` (and the
scheduler's pointer is not already past `t0`) issues starts at exactly
`t0`, `t0 + d1`, `t0 + d1 + d2`: each buffer starts where the previous
one ends - no overlap, no gap. -/
theorem C5_gapless (st : PlayerState) (t0 d1 d2 d3 : ℚ)
    (h0 : st.nextStartTime ≤ t0) (hd1 : 0 ≤ d1) (hd2 : 0 ≤ d2) :
    (scheduleAudio (scheduleAudio (scheduleAudio st t0 d1) t0 d2) t0 d3).startLog =
      (st.nextId + 1 + 1, t0 + d1 + d2) :: (st.nextId + 1, t0 + d1) ::
        (st.nextId, t0) :: st.startLog := by
  have h1 : max st.nextStartTime t0 = t0 := max_eq_right h0
  have h2 : max (t0 + d1) t0 = t0 + d1 := max_eq_left (by linarith)
  have h3 : max (t0 + d1 + d2) t0 = t0 + d1 + d2 := max_eq_left (by linarith)
  simp [scheduleAudio, h1, h2, h3]

/-- C5 witness: concrete clock `t0 = 5` and durations `1, 2, 4` from the
initial scheduler state. -/
theorem C5_witness :
    (scheduleAudio (scheduleAudio (scheduleAudio ⟨0, [], [], [], 0⟩ 5 1) 5 2) 5 4).startLog =
      [(2, (8 : ℚ)), (1, 6), (0, 5)] := by
  have h := C5_gapless ⟨0, [], [], [], 0⟩ 5 1 2 4 (by norm_num) (by norm_num) (by norm_num)
  norm_num at h
  exact h

/-- C6 (confirmed): interruption reset.  After the `interrupted` branch
runs, every handle that was in the active set has had `stop()` called,
the active set is empty, and the next buffer scheduled at clock time
`now ≥ 0` starts exactly at `now` - at/after the current clock time,
never at the stale prior `nextStartTime`. -/
theorem C6_interruption_reset (st : PlayerState) (now dur : ℚ) (hnow : 0 ≤ now) :
    (handleInterrupted st).activeSources = [] ∧
    (∀ s ∈ st.activeSources, s ∈ (handleInterrupted st).stoppedSources) ∧
    (scheduleAudio (handleInterrupted st) now dur).startLog.head? =
      some ((handleInterrupted st).nextId, now) := by
  refine ⟨rfl, ?_, ?_⟩
  · intro s hs
    unfold handleInterrupted
    simp only [List.mem_append]
    exact Or.inl hs
  · unfold handleInterrupted scheduleAudio
    simp only [List.head?_cons]
    rw [max_eq_right hnow]

/-- C6 witness: a state with stale `nextStartTime = 100` and two active
handles, interrupted, then scheduling at clock time 7. -/
theorem C6_witness :
    (handleInterrupted ⟨100, [0, 1], [], [], 2⟩).activeSources = [] ∧
    (∀ s ∈ ([0, 1] : List ℕ), s ∈ (handleInterrupted ⟨100, [0, 1], [], [], 2⟩).stoppedSources) ∧
    (scheduleAudio (handleInterrupted ⟨100, [0, 1], [], [], 2⟩) 7 3).startLog.head? =
      some ((handleInterrupted ⟨100, [0, 1], [], [], 2⟩).nextId, 7) :=
  C6_interruption_reset ⟨100, [0, 1], [], [], 2⟩ 7 3 (by norm_num)

/-- C7 (amended): the re-entry guard of `startLiveMentor` stops the prior
session's microphone stream tracks before the new session is created, but
it does NOT close the prior remote channel and does NOT stop or clear the
prior pending playback - those refs are carried over untouched.  (The
original claim also asserted channel close and playback clearing; see the
counterexample.) -/
theorem C7_reentry_guard (st : AppState) (newStream newSession : ℕ) :
    (startLiveMentorSuccess st newStream newSession).stoppedStreams =
      st.liveStreamRef.toList ++ st.stoppedStreams ∧
    (startLiveMentorSuccess st newStream newSession).closedSessions = st.closedSessions ∧
    (startLiveMentorSuccess st newStream newSession).liveSources = st.liveSources ∧
    (startLiveMentorSuccess st newStream newSession).stoppedSrcs = st.stoppedSrcs := by
  unfold startLiveMentorSuccess reentryGuard
  cases h : st.liveStreamRef <;> simp

/-- C7 counterexample: starting over a prior session (handle 5, stream 1,
one pending playback handle 7) leaves the old channel un-closed and the
old playback handle still scheduled and un-stopped, contradicting the
claim that the prior session is fully force-closed. -/
theorem C7_counterexample :
    (startLiveMentorSuccess ⟨some 5, some 1, [7], true, [], [], []⟩ 10 11).closedSessions = [] ∧
    (startLiveMentorSuccess ⟨some 5, some 1, [7], true, [], [], []⟩ 10 11).liveSources = [7] ∧
    (startLiveMentorSuccess ⟨some 5, some 1, [7], true, [], [], []⟩ 10 11).stoppedSrcs = [] ∧
    (startLiveMentorSuccess ⟨some 5, some 1, [7], true, [], [], []⟩ 10 11).stoppedStreams = [1] := by
  decide

/-- C8 (confirmed): session teardown idempotence.  From any state,
`stopLiveMentor` leaves the session handle and microphone stream released
(`none`), the scheduled-playback set empty, live mode off; it closes the
session handle that was present, stops the stream that was present, and
stops every scheduled source; and a second call is a no-op (the model is
total: every `close()`/`stop()` in the source is wrapped in try/catch, so
neither call raises). -/
theorem C8_stop_idempotent (st : AppState) :
    (stopLiveMentor st).liveSessionRef = none ∧
    (stopLiveMentor st).liveStreamRef = none ∧
    (stopLiveMentor st).liveSources = [] ∧
    (stopLiveMentor st).isLiveMode = false ∧
    (stopLiveMentor st).closedSessions = st.liveSessionRef.toList ++ st.closedSessions ∧
    (stopLiveMentor st).stoppedStreams = st.liveStreamRef.toList ++ st.stoppedStreams ∧
    (stopLiveMentor st).stoppedSrcs = st.liveSources ++ st.stoppedSrcs ∧
    stopLiveMentor (stopLiveMentor st) = stopLiveMentor st := by
  cases h1 : st.liveSessionRef <;> cases h2 : st.liveStreamRef <;>
    simp [stopLiveMentor, h1, h2]

end SmartEcho
